import Mathlib

/-!
Shallow embedding of the Forex-Watch rate acquisition and caching core:
the in-memory rate store (`rateStore.ts`), the provider clients
(exchangerate-api client, freecurrencyapi client, mock provider) and the
background rate fetcher (`jobs/rateFetcher.ts`).

Conventions of the embedding:
* JS `Date` values are modelled as `Int` milliseconds since the epoch;
  `Date.now()` / `new Date()` become an explicit `now : Int` parameter.
* JS `number` rate values are modelled as `Rat`; the code never performs
  arithmetic on rates (it only stores, copies and type-checks them), so the
  carrier only needs decidable equality and an order.
* `async` functions that can `throw AppError` are modelled as pure functions
  returning `Except AppError _`.
* The HTTP layer (`fetchWithTimeout`) is modelled by an environment: a list
  of per-attempt outcomes (timeout / network error / response with status and
  already-JSON-decoded body), one entry per attempt the retry loop may make
  (`retryCount + 1` entries for a full call).
* `AppError` carries `message, statusCode, code, details`; only `statusCode`
  and `code` are observable in the properties below, so the model keeps those
  two fields.
-/

/-- The `Currency` union type from `packages/shared/src/index.ts`. -/
inductive Currency
  | USD | EUR | GBP | JPY | AUD | CAD | CHF | CNY | SEK | NZD
  | MXN | SGD | HKD | NOK | TRY | ZAR | BRL | INR | KRW | PLN
deriving DecidableEq, Repr, Fintype

/-- The string code of a currency (the literal of the TS union member). -/
def Currency.code : Currency → String
  | .USD => "USD" | .EUR => "EUR" | .GBP => "GBP" | .JPY => "JPY"
  | .AUD => "AUD" | .CAD => "CAD" | .CHF => "CHF" | .CNY => "CNY"
  | .SEK => "SEK" | .NZD => "NZD" | .MXN => "MXN" | .SGD => "SGD"
  | .HKD => "HKD" | .NOK => "NOK" | .TRY => "TRY" | .ZAR => "ZAR"
  | .BRL => "BRL" | .INR => "INR" | .KRW => "KRW" | .PLN => "PLN"

/-- `ExchangeRate` from `packages/shared/src/index.ts`: base, quote, rate,
timestamp (ms), provider tag (a plain string in the source). -/
structure ExchangeRate where
  base : Currency
  quote : Currency
  rate : Rat
  timestamp : Int
  provider : String
deriving DecidableEq, Repr

/-- `StoredRate = ExchangeRate & { stale: boolean }` from `rateStore.ts`. -/
structure StoredRate extends ExchangeRate where
  stale : Bool
deriving DecidableEq, Repr

/-- The claim-relevant projection of `AppError` (`utils/errors.ts`):
`statusCode` and machine-readable `code`. -/
structure AppError where
  statusCode : Nat
  code : String
deriving DecidableEq, Repr

def rateValidationError : AppError := ⟨400, "RATE_VALIDATION_ERROR"⟩

def providerConfigError : AppError := ⟨500, "RATE_PROVIDER_CONFIG_ERROR"⟩

def timeoutError : AppError := ⟨504, "RATE_PROVIDER_TIMEOUT"⟩

def requestFailedError : AppError := ⟨503, "RATE_PROVIDER_REQUEST_FAILED"⟩

def retriesExhaustedError : AppError := ⟨503, "RATE_PROVIDER_RETRIES_EXHAUSTED"⟩

def invalidJsonError : AppError := ⟨502, "RATE_PROVIDER_INVALID_JSON"⟩

def invalidRateError : AppError := ⟨502, "RATE_PROVIDER_INVALID_RATE"⟩

/-- `RATE_PROVIDER_ERROR` with the status computed by the caller. -/
def providerError (statusCode : Nat) : AppError := ⟨statusCode, "RATE_PROVIDER_ERROR"⟩

/-! ## Rate store (`services/rates/rateStore.ts`) -/

/-- The store is a JS `Map<string, StoredRate>`; modelled as an association
list with map-update (replace-or-append) semantics. -/
abbrev Store := List (String × StoredRate)

/-- `key(base, quote)` = `` `${base}-${quote}` `` from `rateStore.ts`. -/
def key (base quote : Currency) : String :=
  base.code ++ "-" ++ quote.code

/-- `Map.prototype.set`: replace the entry of an existing key in place,
otherwise append. -/
def mapSet : Store → String → StoredRate → Store
  | [], k, v => [(k, v)]
  | (k', v') :: rest, k, v =>
    if k' = k then (k, v) :: rest else (k', v') :: mapSet rest k v

/-- `Map.prototype.get`. -/
def mapGet : Store → String → Option StoredRate
  | [], _ => none
  | (k', v) :: rest, k => if k' = k then some v else mapGet rest k

/-- `saveRates(rates, stale = false)` from `rateStore.ts`. -/
def saveRates (store : Store) (rates : List ExchangeRate) (stale : Bool) : Store :=
  rates.foldl (fun s r => mapSet s (key r.base r.quote) ⟨r, stale⟩) store

/-- `getRate(base, quote, cacheTtlMs)` from `rateStore.ts`, with `Date.now()`
passed in as `now`. -/
def getRate (store : Store) (base quote : Currency) (cacheTtlMs now : Int) :
    Option StoredRate :=
  match mapGet store (key base quote) with
  | none => none
  | some entry =>
    some { entry with stale := entry.stale || decide (now - entry.timestamp > cacheTtlMs) }

/-! ### Basic store lemmas -/

theorem mapGet_mapSet_self (s : Store) (k : String) (v : StoredRate) :
    mapGet (mapSet s k v) k = some v := by
  induction s with
  | nil => simp [mapSet, mapGet]
  | cons p rest ih =>
    obtain ⟨k', v'⟩ := p
    by_cases h : k' = k <;> simp [mapSet, mapGet, h, ih]

theorem mapGet_mapSet_ne (s : Store) {k k' : String} (v : StoredRate)
    (h : k' ≠ k) : mapGet (mapSet s k v) k' = mapGet s k' := by
  have h' : ¬ k = k' := fun hh => h hh.symm
  induction s with
  | nil => simp [mapSet, mapGet, h']
  | cons p rest ih =>
    obtain ⟨k₀, v₀⟩ := p
    by_cases h₀ : k₀ = k
    · subst h₀
      simp [mapSet, mapGet, h']
    · simp [mapSet, mapGet, h₀, ih]

theorem mapGet_saveRates_not_mem (rates : List ExchangeRate) (store : Store)
    (b : Bool) (k : String) (h : k ∉ rates.map fun r => key r.base r.quote) :
    mapGet (saveRates store rates b) k = mapGet store k := by
  induction rates generalizing store with
  | nil => simp [saveRates]
  | cons r rest ih =>
    simp only [List.map_cons, List.mem_cons, not_or] at h
    have step : saveRates store (r :: rest) b =
        saveRates (mapSet store (key r.base r.quote) ⟨r, b⟩) rest b := rfl
    rw [step, ih _ h.2, mapGet_mapSet_ne _ _ h.1]

theorem mapGet_saveRates_mem (rates : List ExchangeRate) (store : Store)
    (b : Bool) (k : String) (h : k ∈ rates.map fun r => key r.base r.quote) :
    ∃ r : ExchangeRate, mapGet (saveRates store rates b) k = some ⟨r, b⟩ := by
  induction rates generalizing store with
  | nil => simp at h
  | cons r rest ih =>
    have step : saveRates store (r :: rest) b =
        saveRates (mapSet store (key r.base r.quote) ⟨r, b⟩) rest b := rfl
    by_cases hmem : k ∈ rest.map fun r => key r.base r.quote
    · rw [step]; exact ih _ hmem
    · simp only [List.map_cons, List.mem_cons] at h
      rcases h with h | h
      · subst h
        refine ⟨r, ?_⟩
        rw [step, mapGet_saveRates_not_mem _ _ _ _ hmem, mapGet_mapSet_self]
      · exact absurd h hmem

/-- C1: `getRate` returns `null` when no entry exists for the pair; otherwise
it returns a copy of the stored entry whose `stale` field is the stored flag
OR-ed with the age check `now - storedTimestamp > ttlMs`; and after
`saveRates(..., stale := true)` every saved pair reads back with
`stale = true` for every TTL and every read time. -/
theorem getRate_contract :
    (∀ (store : Store) (base quote : Currency) (ttl now : Int),
      mapGet store (key base quote) = none →
      getRate store base quote ttl now = none) ∧
    (∀ (store : Store) (base quote : Currency) (ttl now : Int) (e : StoredRate),
      mapGet store (key base quote) = some e →
      getRate store base quote ttl now =
        some ⟨⟨e.base, e.quote, e.rate, e.timestamp, e.provider⟩,
          e.stale || decide (now - e.timestamp > ttl)⟩) ∧
    (∀ (store : Store) (rates : List ExchangeRate) (base quote : Currency)
      (ttl now : Int),
      key base quote ∈ rates.map (fun r => key r.base r.quote) →
      ∃ e : StoredRate,
        getRate (saveRates store rates true) base quote ttl now = some e ∧
        e.stale = true) := by
  refine ⟨?_, ?_, ?_⟩
  · intro store base quote ttl now h
    simp [getRate, h]
  · intro store base quote ttl now e h
    simp [getRate, h]
  · intro store rates base quote ttl now h
    obtain ⟨r, hr⟩ := mapGet_saveRates_mem rates store true _ h
    refine ⟨⟨⟨r.base, r.quote, r.rate, r.timestamp, r.provider⟩, true⟩, ?_, rfl⟩
    simp [getRate, hr]

/-- C1 witness: a fresh entry saved with `stale = true` reads back stale even
though its timestamp is current and the TTL is huge. -/
theorem getRate_contract_witness :
    (key .USD .EUR ∈
      ([⟨.USD, .EUR, 2, 1000, "mock"⟩] : List ExchangeRate).map
        (fun r => key r.base r.quote)) ∧
    ∃ e : StoredRate,
      getRate (saveRates [] [⟨.USD, .EUR, 2, 1000, "mock"⟩] true)
          .USD .EUR 999999 1000 = some e ∧ e.stale = true :=
  ⟨by simp,
   getRate_contract.2.2 [] [⟨.USD, .EUR, 2, 1000, "mock"⟩] .USD .EUR 999999 1000
     (by simp)⟩

/-! ## Provider clients

Both real clients (`exchangeRateApiClient.ts` and
`freecurrencyApiClient.ts`) share the same control flow:

```
while (attempt <= retryCount) {
  try {
    const response = await fetchWithTimeout(url);
    if (response.ok || response.status < 500 || attempt === retryCount) {
      return await parseResponse(response, ...);
    }
    log.warn(...retrying);
  } catch (error) {
    lastError = error;
    if (attempt === retryCount) throw error;
    log.warn(...retrying);
  }
  attempt += 1;
}
throw retriesExhausted;
```

The loop makes at most `retryCount + 1` HTTP attempts; the environment is a
list with one `FetchOutcome` per potential attempt, so a full call is run on
a list of length `retryCount + 1` and the head is attempt 0.  `retryLoop`
returns the call result together with the number of HTTP attempts actually
made.  Note that an error thrown by `parseResponse` is raised inside the
`try`, so on a non-final attempt it lands in the `catch` and is retried. -/

/-- Outcome of one `fetchWithTimeout` attempt: the abort-timer fired
(`AbortError`, rethrown as the 504 timeout error), `fetch` failed some other
way (rethrown as the 503 request-failed error), or a response arrived with
the given HTTP status and body. -/
inductive FetchOutcome (β : Type)
  | timeout
  | netError
  | response (status : Nat) (body : β)
deriving DecidableEq, Repr

/-- `Response.ok`: status in the range 200-299. -/
def isOk (status : Nat) : Bool := 200 ≤ status && status ≤ 299

/-- The non-2xx status mapping shared by both clients' `parseResponse`:
`status >= 500 ? 503 : status === 404 ? 404 : 502`. -/
def subErrorStatus (status : Nat) : Nat :=
  if 500 ≤ status then 503 else if status = 404 then 404 else 502

/-- The retry loop of `requestLatestRate` / `requestLatestRates`,
generic over the provider-specific `parseResponse`.  A one-element list is
the final attempt (`attempt === retryCount`). -/
def retryLoop {α β : Type} (parse : Nat → β → Except AppError α) :
    List (FetchOutcome β) → Except AppError α × Nat
  | [] => (.error retriesExhaustedError, 0)
  | [.timeout] => (.error timeoutError, 1)
  | [.netError] => (.error requestFailedError, 1)
  | [.response s b] => (parse s b, 1)
  | .timeout :: o :: rest =>
    let r := retryLoop parse (o :: rest); (r.1, r.2 + 1)
  | .netError :: o :: rest =>
    let r := retryLoop parse (o :: rest); (r.1, r.2 + 1)
  | .response s b :: o :: rest =>
    if isOk s || s < 500 then
      match parse s b with
      | .ok v => (.ok v, 1)
      | .error _ => let r := retryLoop parse (o :: rest); (r.1, r.2 + 1)
    else
      let r := retryLoop parse (o :: rest); (r.1, r.2 + 1)

/-! ### ExchangeRate-API client (`exchangeRateApiClient.ts`) -/

/-- The JSON-decoded body of an ExchangeRate-API response.  `invalidJson`
models a body `response.json()` failed on; `success r t` models
`{ result: 'success', conversion_rate, time_last_update_unix? }` where
`r = none` means `conversion_rate` was present but not a number;
`errorBody` models `{ result: 'error', 'error-type' }`. -/
inductive ErBody
  | invalidJson
  | success (conversionRate : Option Rat) (timeLastUpdateUnix : Option Int)
  | errorBody (errorType : String)
deriving DecidableEq, Repr

/-- `body.time_last_update_unix ? new Date(body.time_last_update_unix * 1000)
: new Date()` — note a provider-supplied `0` is falsy in JS and falls back to
the current time. -/
def erTimestamp (timeLastUpdateUnix : Option Int) (now : Int) : Int :=
  match timeLastUpdateUnix with
  | some t => if t = 0 then now else t * 1000
  | none => now

/-- `parseResponse(response, base, quote)` from `exchangeRateApiClient.ts`. -/
def parseResponseER (base quote : Currency) (now : Int)
    (status : Nat) (body : ErBody) : Except AppError ExchangeRate :=
  match body with
  | .invalidJson =>
    if !isOk status then
      .error (providerError (if 500 ≤ status then 503 else status))
    else .error invalidJsonError
  | .success conversionRate timeLastUpdateUnix =>
    if isOk status then
      match conversionRate with
      | none => .error invalidRateError
      | some r =>
        .ok ⟨base, quote, r, erTimestamp timeLastUpdateUnix now, "exchangerate-api"⟩
    else .error (providerError (subErrorStatus status))
  | .errorBody _ => .error (providerError (subErrorStatus status))

/-- `requestLatestRate(base, quote)` from `exchangeRateApiClient.ts`:
validation, `ensureApiKey`, then the retry loop.  Returns the call result
and the number of HTTP attempts issued. -/
def requestLatestRateER (apiKey : Option String) (base quote : Currency)
    (now : Int) (outcomes : List (FetchOutcome ErBody)) :
    Except AppError ExchangeRate × Nat :=
  if base = quote then (.error rateValidationError, 0)
  else
    match apiKey with
    | none => (.error providerConfigError, 0)
    | some _ => retryLoop (parseResponseER base quote now) outcomes

/-! ### Freecurrencyapi client (`freecurrencyApiClient.ts`) -/

/-- The JSON-decoded body of a Freecurrencyapi response: `success data meta`
models `{ data: Record<Currency, number>, meta?: { last_updated_at? } }`
(`meta = none` covers an absent, empty or unparsable `last_updated_at`);
`errorBody` models a body without a `data` field. -/
inductive FcBody
  | invalidJson
  | success (data : List (Currency × Rat)) (lastUpdatedAt : Option Int)
  | errorBody (message : Option String)
deriving DecidableEq, Repr

/-- `body.data[quote]` — JS object indexing; `none` models an absent or
non-numeric value. -/
def lookupRate : List (Currency × Rat) → Currency → Option Rat
  | [], _ => none
  | (q, r) :: rest, quote => if q = quote then some r else lookupRate rest quote

/-- `parseTimestamp(meta)`: provider-supplied update time when valid, else
the current time. -/
def fcTimestamp (lastUpdatedAt : Option Int) (now : Int) : Int :=
  match lastUpdatedAt with
  | some t => t
  | none => now

/-- The success-path loop of the freecurrencyapi `parseResponse`: for each
requested quote read `body.data[quote]`, failing with the 502 invalid-rate
error on a missing or non-numeric entry. -/
def fcRates (base : Currency) (data : List (Currency × Rat)) (ts : Int) :
    List Currency → Except AppError (List ExchangeRate)
  | [] => .ok []
  | q :: rest =>
    match lookupRate data q with
    | none => .error invalidRateError
    | some r =>
      match fcRates base data ts rest with
      | .ok rs => .ok (⟨base, q, r, ts, "freecurrencyapi"⟩ :: rs)
      | .error e => .error e

/-- `parseResponse(response, base, quotes)` from `freecurrencyApiClient.ts`. -/
def parseResponseFC (base : Currency) (quotes : List Currency) (now : Int)
    (status : Nat) (body : FcBody) : Except AppError (List ExchangeRate) :=
  match body with
  | .invalidJson =>
    if !isOk status then
      .error (providerError (if 500 ≤ status then 503 else status))
    else .error invalidJsonError
  | .success data lastUpdatedAt =>
    if isOk status then fcRates base data (fcTimestamp lastUpdatedAt now) quotes
    else .error (providerError (subErrorStatus status))
  | .errorBody _ => .error (providerError (subErrorStatus status))

/-- `requestLatestRates(base, quotes)` from `freecurrencyApiClient.ts`:
validation (`quotes.some(q => q === base)`), `buildUrl`/`ensureApiKey`, then
the retry loop. -/
def requestLatestRatesFC (apiKey : Option String) (base : Currency)
    (quotes : List Currency) (now : Int)
    (outcomes : List (FetchOutcome FcBody)) :
    Except AppError (List ExchangeRate) × Nat :=
  if quotes.any (fun q => q = base) then (.error rateValidationError, 0)
  else
    match apiKey with
    | none => (.error providerConfigError, 0)
    | some _ => retryLoop (parseResponseFC base quotes now) outcomes

/-- The freecurrencyapi `getLatestRate`: destructure the head of
`requestLatestRates(base, [quote])` (`none` models the JS `undefined` a
destructuring of an empty array would give). -/
def fcGetLatestRate (apiKey : Option String) (base quote : Currency)
    (now : Int) (outcomes : List (FetchOutcome FcBody)) :
    Except AppError (Option ExchangeRate) × Nat :=
  match requestLatestRatesFC apiKey base [quote] now outcomes with
  | (.ok rs, n) => (.ok rs.head?, n)
  | (.error e, n) => (.error e, n)

/-! ### Mock provider (`mockRateProvider.ts`) -/

/-- `getLatestRate` of `createMockRateProvider()`: validation, then a fixed
1:1 rate stamped with the current time. -/
def mockGetLatestRate (now : Int) (base quote : Currency) :
    Except AppError ExchangeRate :=
  if base = quote then .error rateValidationError
  else .ok ⟨base, quote, 1, now, "mock"⟩

/-- `getLatestRates` of `createMockRateProvider()`:
`Promise.all(quotes.map(quote => this.getLatestRate(base, quote)))` — the
element results in array order; a validation failure on any element rejects
the whole batch with that (identical) validation error. -/
def mockGetLatestRates (now : Int) (base : Currency) :
    List Currency → Except AppError (List ExchangeRate)
  | [] => .ok []
  | q :: rest =>
    match mockGetLatestRate now base q with
    | .error e => .error e
    | .ok r =>
      match mockGetLatestRates now base rest with
      | .error e => .error e
      | .ok rs => .ok (r :: rs)

/-! ### Helper lemmas on the mock provider and the retry loop -/

theorem mockGetLatestRates_ok (now : Int) (base : Currency)
    (quotes : List Currency) (h : ∀ q ∈ quotes, q ≠ base) :
    mockGetLatestRates now base quotes =
      .ok (quotes.map fun q => ⟨base, q, 1, now, "mock"⟩) := by
  induction quotes with
  | nil => simp [mockGetLatestRates]
  | cons q rest ih =>
    have hq : ¬ base = q := fun hh => h q (by simp) hh.symm
    have hrest := ih fun q' hq' => h q' (by simp [hq'])
    simp [mockGetLatestRates, mockGetLatestRate, hq, hrest]

theorem mockGetLatestRates_mem_base (now : Int) (base : Currency)
    (quotes : List Currency) (h : base ∈ quotes) :
    mockGetLatestRates now base quotes = .error rateValidationError := by
  induction quotes with
  | nil => simp at h
  | cons q rest ih =>
    by_cases hq : base = q
    · simp [mockGetLatestRates, mockGetLatestRate, hq]
    · have hrest : base ∈ rest := by
        rcases List.mem_cons.mp h with h' | h'
        · exact absurd h' hq
        · exact h'
      simp [mockGetLatestRates, mockGetLatestRate, hq, ih hrest]

theorem retryLoop_timeout_step {α β : Type} (parse : Nat → β → Except AppError α)
    (rest : List (FetchOutcome β)) (h : rest ≠ []) :
    retryLoop parse (.timeout :: rest) =
      ((retryLoop parse rest).1, (retryLoop parse rest).2 + 1) := by
  cases rest with
  | nil => exact absurd rfl h
  | cons o rest' => simp [retryLoop]

theorem retryLoop_all_timeout {α β : Type} (parse : Nat → β → Except AppError α)
    (outcomes : List (FetchOutcome β)) (hne : outcomes ≠ [])
    (hall : ∀ o ∈ outcomes, o = .timeout) :
    retryLoop parse outcomes = (.error timeoutError, outcomes.length) := by
  induction outcomes with
  | nil => exact absurd rfl hne
  | cons o rest ih =>
    have ho : o = .timeout := hall o (by simp)
    subst ho
    cases rest with
    | nil => simp [retryLoop]
    | cons o' rest' =>
      have hrest := ih (by simp) (fun x hx => hall x (by simp [hx]))
      rw [retryLoop_timeout_step _ _ (by simp), hrest]
      simp

/-! ### Claim theorems about the provider clients -/

/-- C7: for every provider implementation (mock, freecurrencyapi,
exchangerate-api), a call with the base equal to a requested quote fails at
once with the 400 `RATE_VALIDATION_ERROR` and zero HTTP attempts are made. -/
theorem validation_rejects_equal_pair :
    ∀ (apiKey : Option String) (base quote : Currency) (quotes : List Currency)
      (now : Int) (outER : List (FetchOutcome ErBody))
      (outFC : List (FetchOutcome FcBody)),
    (base = quote →
      requestLatestRateER apiKey base quote now outER =
        (.error rateValidationError, 0)) ∧
    (base = quote →
      mockGetLatestRate now base quote = .error rateValidationError) ∧
    (base ∈ quotes →
      requestLatestRatesFC apiKey base quotes now outFC =
        (.error rateValidationError, 0)) ∧
    (base ∈ quotes →
      mockGetLatestRates now base quotes = .error rateValidationError) ∧
    (base = quote →
      fcGetLatestRate apiKey base quote now outFC =
        (.error rateValidationError, 0)) := by
  intro apiKey base quote quotes now outER outFC
  refine ⟨?_, ?_, ?_, ?_, ?_⟩
  · intro h; simp [requestLatestRateER, h]
  · intro h; simp [mockGetLatestRate, h]
  · intro h
    have : quotes.any (fun q => decide (q = base)) = true :=
      List.any_eq_true.mpr ⟨base, h, by simp⟩
    simp [requestLatestRatesFC, this]
  · exact mockGetLatestRates_mem_base now base quotes
  · intro h
    have : ([quote].any (fun q => decide (q = base))) = true :=
      List.any_eq_true.mpr ⟨quote, by simp, by simp [h]⟩
    simp [fcGetLatestRate, requestLatestRatesFC, this]

/-- C7 witness: `base = quote = USD` rejected by all three providers with
zero attempts. -/
theorem validation_rejects_equal_pair_witness :
    ((.USD : Currency) = .USD ∧ (.USD : Currency) ∈ [Currency.EUR, .USD]) ∧
    requestLatestRateER (some "api-key") .USD .USD 0 [] =
      (.error rateValidationError, 0) ∧
    mockGetLatestRate 0 .USD .USD = .error rateValidationError ∧
    requestLatestRatesFC (some "api-key") .USD [.EUR, .USD] 0 [] =
      (.error rateValidationError, 0) ∧
    mockGetLatestRates 0 .USD [.EUR, .USD] = .error rateValidationError ∧
    fcGetLatestRate (some "api-key") .USD .USD 0 [] =
      (.error rateValidationError, 0) :=
  have h := validation_rejects_equal_pair (some "api-key") .USD .USD
    [.EUR, .USD] 0 [] []
  ⟨⟨rfl, by simp⟩, h.1 rfl, h.2.1 rfl, h.2.2.1 (by simp), h.2.2.2.1 (by simp),
    h.2.2.2.2 rfl⟩

/-- C10: the mock batched call is the elementwise extension of the single
call: with no quote equal to the base it returns one rate per quote, in
order, each equal to the single-call result (rate 1, provider mock, stamped
with the same time); with the base among the quotes it fails with the same
validation error as the single call. -/
theorem mock_batch_elementwise :
    ∀ (now : Int) (base : Currency) (quotes : List Currency),
    ((∀ q ∈ quotes, q ≠ base) →
      mockGetLatestRates now base quotes =
        .ok (quotes.map fun q => ⟨base, q, 1, now, "mock"⟩) ∧
      ∀ q ∈ quotes,
        mockGetLatestRate now base q = .ok ⟨base, q, 1, now, "mock"⟩) ∧
    (base ∈ quotes →
      mockGetLatestRates now base quotes = .error rateValidationError ∧
      mockGetLatestRate now base base = .error rateValidationError) := by
  intro now base quotes
  constructor
  · intro h
    refine ⟨mockGetLatestRates_ok now base quotes h, ?_⟩
    intro q hq
    have : ¬ base = q := fun hh => h q hq hh.symm
    simp [mockGetLatestRate, this]
  · intro h
    exact ⟨mockGetLatestRates_mem_base now base quotes h,
      by simp [mockGetLatestRate]⟩

/-- C10 witness: the batch over `[EUR, JPY]` from base `USD` equals the two
single-call results elementwise, and a batch containing the base fails with
the validation error. -/
theorem mock_batch_elementwise_witness :
    (∀ q ∈ [Currency.EUR, .JPY], q ≠ Currency.USD) ∧
    (mockGetLatestRates 7 .USD [.EUR, .JPY] =
      .ok [⟨.USD, .EUR, 1, 7, "mock"⟩, ⟨.USD, .JPY, 1, 7, "mock"⟩] ∧
     ∀ q ∈ [Currency.EUR, .JPY],
       mockGetLatestRate 7 .USD q = .ok ⟨.USD, q, 1, 7, "mock"⟩) ∧
    (mockGetLatestRates 7 .USD [.EUR, .USD] = .error rateValidationError ∧
     mockGetLatestRate 7 .USD .USD = .error rateValidationError) :=
  ⟨by decide,
   (mock_batch_elementwise 7 .USD [.EUR, .JPY]).1 (by decide),
   (mock_batch_elementwise 7 .USD [.EUR, .USD]).2 (by decide)⟩

/-- C5: a 5xx response on the first attempt followed by a 2xx response that
parses successfully returns the parsed result with two HTTP attempts, and
the result is the same one a single-attempt call on the 2xx response would
give (the retry is invisible on success). -/
theorem retry_invisible_on_success :
    ∀ {α β : Type} (parse : Nat → β → Except AppError α) (s₁ : Nat) (b₁ : β)
      (s₂ : Nat) (b₂ : β) (rest : List (FetchOutcome β)) (v : α),
    500 ≤ s₁ → 200 ≤ s₂ → s₂ ≤ 299 → parse s₂ b₂ = .ok v →
    retryLoop parse (.response s₁ b₁ :: .response s₂ b₂ :: rest) =
      (.ok v, 2) ∧
    (retryLoop parse [.response s₂ b₂]).1 = .ok v := by
  intro α β parse s₁ b₁ s₂ b₂ rest v h₁ h₂ h₃ hp
  have hok₁ : isOk s₁ = false := by simp only [isOk]; simp; omega
  have hlt₁ : ¬ s₁ < 500 := by omega
  have hok₂ : isOk s₂ = true := by simp only [isOk]; simp; omega
  refine ⟨?_, by simp [retryLoop, hp]⟩
  cases rest with
  | nil => simp [retryLoop, hok₁, hlt₁, hok₂, hp]
  | cons o rest' => simp [retryLoop, hok₁, hlt₁, hok₂, hp]

/-- C5 witness: the exchangerate-api client sees a 500 then a 200 with rate
3; the call returns the parsed rate in two attempts, matching the
single-attempt result. -/
theorem retry_invisible_on_success_witness :
    ((500 : Nat) ≤ 500 ∧ (200 : Nat) ≤ 200 ∧ (200 : Nat) ≤ 299 ∧
     parseResponseER .USD .EUR 0 200 (.success (some 3) none) =
       .ok ⟨.USD, .EUR, 3, 0, "exchangerate-api"⟩) ∧
    retryLoop (parseResponseER .USD .EUR 0)
        [.response 500 (.errorBody "server"), .response 200 (.success (some 3) none)] =
      (.ok ⟨.USD, .EUR, 3, 0, "exchangerate-api"⟩, 2) ∧
    (retryLoop (parseResponseER .USD .EUR 0)
        [.response 200 (.success (some 3) none)]).1 =
      .ok ⟨.USD, .EUR, 3, 0, "exchangerate-api"⟩ :=
  ⟨⟨le_refl 500, le_refl 200, by omega, rfl⟩,
   retry_invisible_on_success (parseResponseER .USD .EUR 0) 500
     (.errorBody "server") 200 (.success (some 3) none) [] _
     (le_refl 500) (le_refl 200) (by omega) rfl⟩

/-- C2 counterexample: with the default retry budget (one retry, so a
two-outcome environment), a call whose first attempt times out is re-issued:
if the second attempt succeeds the call returns the parsed rate after two
HTTP attempts instead of failing with the 504 timeout error after one. -/
theorem timeout_not_retried_counterexample :
    requestLatestRateER (some "api-key") .USD .EUR 0
        [.timeout, .response 200 (.success (some 2) none)] =
      (.ok ⟨.USD, .EUR, 2, 0, "exchangerate-api"⟩, 2) ∧
    (Except.ok (⟨.USD, .EUR, 2, 0, "exchangerate-api"⟩ : ExchangeRate) ≠
      (Except.error timeoutError : Except AppError ExchangeRate)) ∧
    (2 : Nat) ≠ 1 :=
  ⟨rfl, fun h => Except.noConfusion h, by omega⟩

/-- C2 amended: a timeout is caught and retried like any other failed
attempt — the loop continues to the next attempt whenever one remains, and
the call fails with the 504 timeout error only once every attempt (all
`retryCount + 1` of them) has timed out. -/
theorem timeout_retried_until_exhaustion :
    ∀ {α β : Type} (parse : Nat → β → Except AppError α)
      (rest outcomes : List (FetchOutcome β)),
    (rest ≠ [] →
      retryLoop parse (.timeout :: rest) =
        ((retryLoop parse rest).1, (retryLoop parse rest).2 + 1)) ∧
    (outcomes ≠ [] → (∀ o ∈ outcomes, o = .timeout) →
      retryLoop parse outcomes = (.error timeoutError, outcomes.length)) :=
  fun parse rest outcomes =>
    ⟨retryLoop_timeout_step parse rest,
     retryLoop_all_timeout parse outcomes⟩

/-- C2 amended witness: both attempts of the exchangerate-api client time
out; the call fails with the 504 timeout error after two HTTP attempts. -/
theorem timeout_retried_until_exhaustion_witness :
    (([.timeout, .timeout] : List (FetchOutcome ErBody)) ≠ [] ∧
     ∀ o ∈ ([.timeout, .timeout] : List (FetchOutcome ErBody)), o = .timeout) ∧
    retryLoop (parseResponseER .USD .EUR 0) [.timeout, .timeout] =
      (.error timeoutError, 2) :=
  ⟨⟨by simp, by decide⟩,
   (timeout_retried_until_exhaustion (parseResponseER .USD .EUR 0)
     [.timeout] [.timeout, .timeout]).2 (by simp) (by decide)⟩

/-- C6: evaluation at the failing input.  With the default retry budget, a
404 response is NOT settled in one attempt: the `ProviderError` thrown by
`parseResponse` inside the `try` is caught by the retry loop's `catch` and
the request is re-issued; only the second 404 surfaces the error.  The final
error does preserve status 404, but two HTTP attempts are made where the
claim requires exactly one. -/
theorem notFound_is_retried :
    requestLatestRateER (some "api-key") .USD .EUR 0
        [.response 404 (.errorBody "unsupported-code"),
         .response 404 (.errorBody "unsupported-code")] =
      (.error (providerError 404), 2) ∧ (2 : Nat) ≠ 1 :=
  ⟨rfl, by omega⟩

/-- C4 counterexample: a well-formed 2xx ExchangeRate-API response whose
`conversion_rate` is `0` parses successfully into an `ExchangeRate` with
`rate = 0`, which is not a positive number. -/
theorem positive_rate_counterexample :
    parseResponseER .USD .EUR 0 200 (.success (some 0) (some 1700000000)) =
      .ok ⟨.USD, .EUR, 0, 1700000000000, "exchangerate-api"⟩ ∧
    ¬ (0 < (⟨.USD, .EUR, 0, 1700000000000, "exchangerate-api"⟩ :
        ExchangeRate).rate) :=
  ⟨rfl, lt_irrefl 0⟩

theorem fcRates_ok_spec (base : Currency) (data : List (Currency × Rat))
    (ts : Int) :
    ∀ (quotes : List Currency) (ers : List ExchangeRate),
      fcRates base data ts quotes = .ok ers →
      ers.map (fun er => er.quote) = quotes ∧
      ∀ er ∈ ers, er.base = base ∧ er.provider = "freecurrencyapi" ∧
        er.timestamp = ts ∧ lookupRate data er.quote = some er.rate := by
  intro quotes
  induction quotes with
  | nil =>
    intro ers h
    simp [fcRates] at h
    subst h
    simp
  | cons q rest ih =>
    intro ers h
    simp only [fcRates] at h
    cases hq : lookupRate data q with
    | none => rw [hq] at h; exact absurd h (by simp)
    | some r =>
      rw [hq] at h
      cases hrest : fcRates base data ts rest with
      | error e => rw [hrest] at h; exact absurd h (by simp)
      | ok rs =>
        rw [hrest] at h
        have hers : ers = ⟨base, q, r, ts, "freecurrencyapi"⟩ :: rs := by
          cases h; rfl
        subst hers
        obtain ⟨hmap, hall⟩ := ih rs hrest
        refine ⟨by simp [hmap], ?_⟩
        intro er her
        rcases List.mem_cons.mp her with her | her
        · subst her; exact ⟨rfl, rfl, rfl, hq⟩
        · exact hall er her

/-- C4 amended: an `ExchangeRate` parsed from a successful (2xx, well-formed)
provider response carries the requested `base` and `quote` exactly (no
swapping) and the rate number the provider reported — the parser checks only
that the rate is a number, not that it is positive, so `rate > 0` holds
exactly when the provider-reported number is positive. -/
theorem parse_success_fields :
    ∀ (base quote : Currency) (quotes : List Currency)
      (data : List (Currency × Rat)) (now : Int) (status : Nat) (r : Rat)
      (t meta : Option Int) (ers : List ExchangeRate),
    (isOk status = true →
      parseResponseER base quote now status (.success (some r) t) =
        .ok ⟨base, quote, r, erTimestamp t now, "exchangerate-api"⟩) ∧
    (isOk status = true →
      parseResponseFC base quotes now status (.success data meta) = .ok ers →
      ers.map (fun er => er.quote) = quotes ∧
      ∀ er ∈ ers, er.base = base ∧ er.provider = "freecurrencyapi" ∧
        lookupRate data er.quote = some er.rate ∧
        ((∀ q r', lookupRate data q = some r' → 0 < r') → 0 < er.rate)) := by
  intro base quote quotes data now status r t meta ers
  constructor
  · intro hok
    simp [parseResponseER, hok]
  · intro hok hparse
    simp only [parseResponseFC, hok, if_true] at hparse
    obtain ⟨hmap, hall⟩ := fcRates_ok_spec base data (fcTimestamp meta now) quotes ers hparse
    refine ⟨hmap, ?_⟩
    intro er her
    obtain ⟨hb, hprov, _, hrate⟩ := hall er her
    exact ⟨hb, hprov, hrate, fun hpos => hpos er.quote er.rate hrate⟩

/-- C4 amended witness: a 200 response parsed by each client; the produced
records carry the requested pair and the provider-reported numbers. -/
theorem parse_success_fields_witness :
    (isOk 200 = true ∧
     parseResponseFC .USD [.EUR] 5 200 (.success [(.EUR, 2)] none) =
       .ok [⟨.USD, .EUR, 2, 5, "freecurrencyapi"⟩]) ∧
    parseResponseER .USD .EUR 0 200 (.success (some 3) none) =
      .ok ⟨.USD, .EUR, 3, 0, "exchangerate-api"⟩ ∧
    (([⟨.USD, .EUR, 2, 5, "freecurrencyapi"⟩] : List ExchangeRate).map
        (fun er => er.quote) = [.EUR] ∧
     ∀ er ∈ ([⟨.USD, .EUR, 2, 5, "freecurrencyapi"⟩] : List ExchangeRate),
       er.base = .USD ∧ er.provider = "freecurrencyapi" ∧
       lookupRate [(.EUR, 2)] er.quote = some er.rate ∧
       ((∀ q r', lookupRate [(.EUR, 2)] q = some r' → 0 < r') → 0 < er.rate)) :=
  ⟨⟨rfl, rfl⟩,
   (parse_success_fields .USD .EUR [.EUR] [(.EUR, 2)] 0 200 3 none none []).1 rfl,
   (parse_success_fields .USD .EUR [.EUR] [(.EUR, 2)] 5 200 3 none none
     [⟨.USD, .EUR, 2, 5, "freecurrencyapi"⟩]).2 rfl rfl⟩

/-! ## Rate fetcher (`jobs/rateFetcher.ts`) -/

/-- The `RateProvider` interface (`services/rates/types.ts`): a mandatory
single-pair fetch and an optional batched fetch. -/
structure Provider where
  getLatestRate : Currency → Currency → Except AppError ExchangeRate
  getLatestRates :
    Option (Currency → List Currency → Except AppError (List ExchangeRate))

def isError {ε α : Type} : Except ε α → Bool
  | .error _ => true
  | .ok _ => false

/-- The sequential fallback loop of `fetchForBase`: fetch each quote in
order, collecting results, aborting at the first thrown error.  Also counts
the provider calls made. -/
def fetchSeq (f : Currency → Except AppError ExchangeRate) :
    List Currency → Except AppError (List ExchangeRate) × Nat
  | [] => (.ok [], 0)
  | q :: rest =>
    match f q with
    | .error e => (.error e, 1)
    | .ok r =>
      match fetchSeq f rest with
      | (.ok rs, n) => (.ok (r :: rs), n + 1)
      | (.error e, n) => (.error e, n + 1)

/-- One iteration of the `catch` block's recovery loop in `fetchForBase`:
`const cached = getRate(base, quote, cacheTtlMs); if (cached) saveRates([
{ base, quote, rate: cached.rate, timestamp: cached.timestamp, provider:
cached.provider }], true)`. -/
def markStaleStep (base : Currency) (cacheTtlMs now : Int) (s : Store)
    (q : Currency) : Store :=
  match getRate s base q cacheTtlMs now with
  | none => s
  | some cached =>
    saveRates s [⟨base, q, cached.rate, cached.timestamp, cached.provider⟩] true

/-- The whole recovery loop of `fetchForBase`'s `catch` block. -/
def markStaleOnFailure (base : Currency) (cacheTtlMs now : Int)
    (store : Store) (quotes : List Currency) : Store :=
  quotes.foldl (markStaleStep base cacheTtlMs now) store

/-- `fetchForBase(base, quotes)` from `rateFetcher.ts`, returning the store
after the call together with the number of provider calls made. -/
def fetchForBase (p : Provider) (cacheTtlMs now : Int) (store : Store)
    (base : Currency) (quotes : List Currency) : Store × Nat :=
  match p.getLatestRates with
  | some batched =>
    match batched base quotes with
    | .ok rates => (saveRates store rates false, 1)
    | .error _ => (markStaleOnFailure base cacheTtlMs now store quotes, 1)
  | none =>
    match fetchSeq (p.getLatestRate base) quotes with
    | (.ok results, n) => (saveRates store results false, n)
    | (.error _, n) => (markStaleOnFailure base cacheTtlMs now store quotes, n)

/-- Whether the fetch part of `fetchForBase` throws (and the `catch` block
runs). -/
def fetchFails (p : Provider) (base : Currency) (quotes : List Currency) :
    Bool :=
  match p.getLatestRates with
  | some batched => isError (batched base quotes)
  | none => isError (fetchSeq (p.getLatestRate base) quotes).1

/-- One step of `groupByBase`: append the quote to the base's bucket,
creating the bucket on first sight of the base (JS `Map` insertion order). -/
def addPair : List (Currency × List Currency) → Currency → Currency →
    List (Currency × List Currency)
  | [], b, q => [(b, [q])]
  | (b', qs) :: rest, b, q =>
    if b' = b then (b', qs ++ [q]) :: rest else (b', qs) :: addPair rest b q

/-- `groupByBase(pairs)` from `rateFetcher.ts`. -/
def groupByBase (pairs : List (Currency × Currency)) :
    List (Currency × List Currency) :=
  pairs.foldl (fun acc p => addPair acc p.1 p.2) []

/-- `config.rates.activeHours` (timezone omitted: the current hour in that
timezone is passed in directly as `currentHour`). -/
structure ActiveHours where
  startHour : Int
  endHour : Int

/-- `withinActiveWindow()` from `rateFetcher.ts`:
`currentHour >= startHour && currentHour < endHour`. -/
def withinActiveWindow (hours : ActiveHours) (currentHour : Int) : Bool :=
  hours.startHour ≤ currentHour && currentHour < hours.endHour

/-- `runFetch()` from `rateFetcher.ts`: skip everything outside the active
window, otherwise fetch the grouped pairs base by base.  Returns the final
store and the total number of provider calls. -/
def runFetch (p : Provider) (hours : ActiveHours) (currentHour : Int)
    (pairs : List (Currency × Currency)) (cacheTtlMs now : Int)
    (store : Store) : Store × Nat :=
  if !withinActiveWindow hours currentHour then (store, 0)
  else
    (groupByBase pairs).foldl
      (fun acc g =>
        let r := fetchForBase p cacheTtlMs now acc.1 g.1 g.2
        (r.1, acc.2 + r.2))
      (store, 0)

/-- The mock provider as a `Provider` record. -/
def mockProvider (now : Int) : Provider :=
  ⟨mockGetLatestRate now, some (mockGetLatestRates now)⟩

/-! ### Key injectivity and recovery-loop lemmas -/

theorem code_inj : ∀ a b : Currency, a.code = b.code → a = b := by decide

theorem key_inj_right (b : Currency) {q q' : Currency}
    (h : key b q = key b q') : q = q' := by
  have hd := congrArg String.data h
  simp only [key, String.data_append, List.append_assoc] at hd
  exact code_inj q q'
    (String.ext (List.append_cancel_left (List.append_cancel_left hd)))

theorem mapGet_markStaleStep_ne (base : Currency) (ttl now : Int) (s : Store)
    {q q₀ : Currency} (h : q ≠ q₀) :
    mapGet (markStaleStep base ttl now s q₀) (key base q) =
      mapGet s (key base q) := by
  have hk : key base q ≠ key base q₀ := fun hh => h (key_inj_right base hh)
  unfold markStaleStep
  cases getRate s base q₀ ttl now with
  | none => rfl
  | some cached =>
    show mapGet (mapSet s _ _) _ = _
    exact mapGet_mapSet_ne s _ hk

theorem mapGet_markStaleStep_self (base : Currency) (ttl now : Int)
    (s : Store) (q : Currency) :
    mapGet (markStaleStep base ttl now s q) (key base q) =
      (match mapGet s (key base q) with
       | none => none
       | some e => some ⟨⟨base, q, e.rate, e.timestamp, e.provider⟩, true⟩) := by
  unfold markStaleStep getRate
  cases hg : mapGet s (key base q) with
  | none => simp [hg]
  | some e =>
    simp only [hg]
    show mapGet (mapSet s _ _) _ = _
    exact mapGet_mapSet_self s _ _

theorem mapGet_markStale_not_mem (base : Currency) (ttl now : Int) :
    ∀ (quotes : List Currency) (store : Store) (q : Currency), q ∉ quotes →
      mapGet (markStaleOnFailure base ttl now store quotes) (key base q) =
        mapGet store (key base q) := by
  intro quotes
  induction quotes with
  | nil => intro store q _; rfl
  | cons q₀ rest ih =>
    intro store q h
    simp only [List.mem_cons, not_or] at h
    have step : markStaleOnFailure base ttl now store (q₀ :: rest) =
        markStaleOnFailure base ttl now (markStaleStep base ttl now store q₀)
          rest := rfl
    rw [step, ih _ q h.2, mapGet_markStaleStep_ne base ttl now store h.1]

theorem mapGet_markStale (base : Currency) (ttl now : Int) :
    ∀ (quotes : List Currency) (store : Store) (q : Currency), q ∈ quotes →
      mapGet (markStaleOnFailure base ttl now store quotes) (key base q) =
        (match mapGet store (key base q) with
         | none => none
         | some e => some ⟨⟨base, q, e.rate, e.timestamp, e.provider⟩, true⟩) := by
  intro quotes
  induction quotes with
  | nil => intro store q h; simp at h
  | cons q₀ rest ih =>
    intro store q h
    have step : markStaleOnFailure base ttl now store (q₀ :: rest) =
        markStaleOnFailure base ttl now (markStaleStep base ttl now store q₀)
          rest := rfl
    by_cases hmem : q ∈ rest
    · rw [step, ih _ q hmem]
      by_cases hq : q = q₀
      · subst hq
        rw [mapGet_markStaleStep_self base ttl now store q]
        cases mapGet store (key base q) with
        | none => rfl
        | some e => rfl
      · rw [mapGet_markStaleStep_ne base ttl now store hq]
    · have hq : q = q₀ := by
        rcases List.mem_cons.mp h with h' | h'
        · exact h'
        · exact absurd h' hmem
      subst hq
      rw [step, mapGet_markStale_not_mem base ttl now rest _ q hmem,
        mapGet_markStaleStep_self base ttl now store q]

theorem fetchSeq_error_of_mem (f : Currency → Except AppError ExchangeRate) :
    ∀ (quotes : List Currency) (q : Currency), q ∈ quotes →
      isError (f q) = true → isError (fetchSeq f quotes).1 = true := by
  intro quotes
  induction quotes with
  | nil => intro q h; simp at h
  | cons q₀ rest ih =>
    intro q hq herr
    cases hf : f q₀ with
    | error e => simp [fetchSeq, hf, isError]
    | ok r =>
      have hq' : q ∈ rest := by
        rcases List.mem_cons.mp hq with h | h
        · subst h; rw [hf] at herr; simp [isError] at herr
        · exact h
      have hrec := ih q hq' herr
      cases hrest : fetchSeq f rest with
      | mk res n =>
        cases res with
        | ok rs => rw [hrest] at hrec; simp [isError] at hrec
        | error e => simp [fetchSeq, hf, hrest, isError]

/-- C3: when the fetch for a base fails, each quote under that base keeps its
prior stored entry re-flagged `stale = true` with the rate, timestamp and
provider unchanged, and a quote with no prior entry still has none after the
cycle — failure neither deletes nor creates values. -/
theorem fetchForBase_failure_preserves :
    ∀ (p : Provider) (ttl now : Int) (store : Store) (base : Currency)
      (quotes : List Currency) (q : Currency),
    fetchFails p base quotes = true → q ∈ quotes →
    (∀ e : StoredRate, mapGet store (key base q) = some e →
      mapGet (fetchForBase p ttl now store base quotes).1 (key base q) =
        some ⟨⟨base, q, e.rate, e.timestamp, e.provider⟩, true⟩) ∧
    (mapGet store (key base q) = none →
      mapGet (fetchForBase p ttl now store base quotes).1 (key base q) =
        none) := by
  intro p ttl now store base quotes q hfail hq
  have hms : (fetchForBase p ttl now store base quotes).1 =
      markStaleOnFailure base ttl now store quotes := by
    unfold fetchFails at hfail
    cases hb : p.getLatestRates with
    | some batched =>
      rw [hb] at hfail
      have hfail' : isError (batched base quotes) = true := hfail
      have hred : fetchForBase p ttl now store base quotes =
          (match batched base quotes with
           | .ok rates => (saveRates store rates false, 1)
           | .error _ => (markStaleOnFailure base ttl now store quotes, 1)) := by
        unfold fetchForBase
        rw [hb]
      cases hr : batched base quotes with
      | ok rates => rw [hr] at hfail'; simp [isError] at hfail'
      | error e => rw [hred, hr]
    | none =>
      rw [hb] at hfail
      have hfail' : isError (fetchSeq (p.getLatestRate base) quotes).1 = true :=
        hfail
      have hred : fetchForBase p ttl now store base quotes =
          (match fetchSeq (p.getLatestRate base) quotes with
           | (.ok results, n) => (saveRates store results false, n)
           | (.error _, n) =>
             (markStaleOnFailure base ttl now store quotes, n)) := by
        unfold fetchForBase
        rw [hb]
      cases hr : fetchSeq (p.getLatestRate base) quotes with
      | mk res n =>
        cases res with
        | ok rs => rw [hr] at hfail'; simp [isError] at hfail'
        | error e => rw [hred, hr]
  rw [hms, mapGet_markStale base ttl now quotes store q hq]
  constructor
  · intro e he; rw [he]
  · intro he; rw [he]

/-- A provider whose batched call always fails with a network-style 503. -/
def failingProvider : Provider :=
  ⟨fun _ _ => .error requestFailedError,
   some (fun _ _ => .error requestFailedError)⟩

/-- A batchless provider that succeeds on every quote except JPY. -/
def seqProvider : Provider :=
  ⟨fun base quote =>
    if quote = .JPY then .error requestFailedError
    else .ok ⟨base, quote, 5, 500, "exchangerate-api"⟩,
   none⟩

/-- A store holding one fresh USD-EUR entry. -/
def sampleStore : Store :=
  saveRates [] [⟨.USD, .EUR, 2, 100, "exchangerate-api"⟩] false

/-- C3 witness: a failing cycle over `USD -> [EUR, JPY]` re-saves the prior
USD-EUR entry unchanged except `stale = true`, and leaves USD-JPY (never
stored) absent. -/
theorem fetchForBase_failure_preserves_witness :
    (fetchFails failingProvider .USD [.EUR, .JPY] = true ∧
     Currency.EUR ∈ [Currency.EUR, .JPY] ∧
     Currency.JPY ∈ [Currency.EUR, .JPY] ∧
     mapGet sampleStore (key .USD .EUR) =
       some ⟨⟨.USD, .EUR, 2, 100, "exchangerate-api"⟩, false⟩ ∧
     mapGet sampleStore (key .USD .JPY) = none) ∧
    mapGet (fetchForBase failingProvider 60000 200 sampleStore .USD
        [.EUR, .JPY]).1 (key .USD .EUR) =
      some ⟨⟨.USD, .EUR, 2, 100, "exchangerate-api"⟩, true⟩ ∧
    mapGet (fetchForBase failingProvider 60000 200 sampleStore .USD
        [.EUR, .JPY]).1 (key .USD .JPY) = none :=
  ⟨⟨rfl, by simp, by simp, rfl, rfl⟩,
   (fetchForBase_failure_preserves failingProvider 60000 200 sampleStore .USD
       [.EUR, .JPY] .EUR rfl (by simp)).1
     ⟨⟨.USD, .EUR, 2, 100, "exchangerate-api"⟩, false⟩ rfl,
   (fetchForBase_failure_preserves failingProvider 60000 200 sampleStore .USD
       [.EUR, .JPY] .JPY rfl (by simp)).2 rfl⟩

/-- C9: in the sequential fallback path (no batched `getLatestRates`), if any
quote under a base fails then no rate fetched in that invocation is saved:
every quote of the base reads back as its prior entry marked `stale = true`,
or stays absent if it had none — partial successes are discarded. -/
theorem fetchForBase_seq_all_or_nothing :
    ∀ (p : Provider) (ttl now : Int) (store : Store) (base : Currency)
      (quotes : List Currency) (qf q : Currency),
    p.getLatestRates = none →
    qf ∈ quotes → isError (p.getLatestRate base qf) = true →
    q ∈ quotes →
    mapGet (fetchForBase p ttl now store base quotes).1 (key base q) =
      (match mapGet store (key base q) with
       | none => none
       | some e => some ⟨⟨base, q, e.rate, e.timestamp, e.provider⟩, true⟩) := by
  intro p ttl now store base quotes qf q hnone hqf herr hq
  have hfail : fetchFails p base quotes = true := by
    unfold fetchFails
    rw [hnone]
    exact fetchSeq_error_of_mem (p.getLatestRate base) quotes qf hqf herr
  have h := fetchForBase_failure_preserves p ttl now store base quotes q hfail hq
  cases hg : mapGet store (key base q) with
  | none => exact h.2 hg
  | some e => exact h.1 e hg

/-- C9 witness: EUR succeeds (rate 5) before JPY fails, yet the successful
EUR fetch is discarded: the store still holds the prior rate 2 entry, now
stale. -/
theorem fetchForBase_seq_all_or_nothing_witness :
    (seqProvider.getLatestRates = none ∧
     Currency.JPY ∈ [Currency.EUR, .JPY] ∧
     isError (seqProvider.getLatestRate .USD .JPY) = true ∧
     Currency.EUR ∈ [Currency.EUR, .JPY] ∧
     isError (seqProvider.getLatestRate .USD .EUR) = false) ∧
    mapGet (fetchForBase seqProvider 60000 200 sampleStore .USD
        [.EUR, .JPY]).1 (key .USD .EUR) =
      some ⟨⟨.USD, .EUR, 2, 100, "exchangerate-api"⟩, true⟩ :=
  ⟨⟨rfl, by simp, rfl, by simp, rfl⟩,
   (fetchForBase_seq_all_or_nothing seqProvider 60000 200 sampleStore .USD
      [.EUR, .JPY] .JPY .EUR rfl (by simp) rfl (by simp)).trans rfl⟩

/-- C8: a fetch cycle whose current hour (in the configured timezone) lies
outside `[startHour, endHour)` makes zero provider calls and leaves the rate
store exactly as it was. -/
theorem runFetch_outside_window :
    ∀ (p : Provider) (hours : ActiveHours) (currentHour : Int)
      (pairs : List (Currency × Currency)) (ttl now : Int) (store : Store),
    ¬ (hours.startHour ≤ currentHour ∧ currentHour < hours.endHour) →
    runFetch p hours currentHour pairs ttl now store = (store, 0) := by
  intro p hours currentHour pairs ttl now store h
  have hw : withinActiveWindow hours currentHour = false := by
    simp only [withinActiveWindow, Bool.and_eq_false_iff,
      decide_eq_false_iff_not]
    by_cases hs : hours.startHour ≤ currentHour
    · right; intro hlt; exact h ⟨hs, hlt⟩
    · left; exact hs
  simp [runFetch, hw]

/-- C8 witness: at hour 22 with the active window `[8, 20)` the mock-backed
fetch cycle performs zero provider calls and returns the store untouched. -/
theorem runFetch_outside_window_witness :
    ¬ ((8 : Int) ≤ 22 ∧ (22 : Int) < 20) ∧
    runFetch (mockProvider 0) ⟨8, 20⟩ 22 [(.USD, .EUR), (.USD, .JPY)]
        60000 0 sampleStore = (sampleStore, 0) :=
  ⟨by decide,
   runFetch_outside_window (mockProvider 0) ⟨8, 20⟩ 22
     [(.USD, .EUR), (.USD, .JPY)] 60000 0 sampleStore (by decide)⟩
